import Mathlib

/-!
Verification of the filter-expression language of the notion-agent-skill
repository (src/scripts/notion/utils/sync.js and
src/scripts/notion/utils/helpers.js), shallowly embedded in Lean.
Strings are modelled as Lean `String`/`List Char`; JS exceptions are
modelled by `Except String`; JS objects holding the compiled filter are
modelled by the inductives `Ast`/`Compiled` below.
-/

/-- Models the JS `\s` character class for the whitespace characters that can
occur in filter strings (ASCII whitespace plus no-break space). -/
def isJsSpace (c : Char) : Bool :=
  c = ' ' || c = '\t' || c = '\n' || c = '\r' || c = '\x0b' || c = '\x0c' || c = ' '

/-- Models the JS `\w` word-character class used by the `\b` boundary in
the AND/OR keyword regexes: letters, digits and underscore. -/
def isWordChar (c : Char) : Bool :=
  c.isAlphanum || c = '_'

/-- Models `String.prototype.trim` on a character list. -/
def jsTrimList (cs : List Char) : List Char :=
  ((cs.dropWhile isJsSpace).reverse.dropWhile isJsSpace).reverse

/-- Models `String.prototype.trim`. -/
def jsTrim (s : String) : String :=
  String.mk (jsTrimList s.data)

/-- Models `Array.prototype.join` with separator comma-space. -/
def joinComma (xs : List String) : String :=
  String.intercalate ", " xs

/-- Naive substring search on character lists. -/
def containsSub (hay pat : List Char) : Bool :=
  if pat.isPrefixOf hay then true
  else
    match hay with
    | [] => false
    | _ :: t => containsSub t pat

/-- Substring test (used to state the spec's "message contains ..." clauses). -/
def strContains (s pat : String) : Bool :=
  containsSub s.data pat.data

/-- The single-quote character (written via its code point). -/
def singleQuoteChar : Char := Char.ofNat 39

/-- The backslash character. -/
def backslashChar : Char := Char.ofNat 92

/-- Models the regex character class `[^a-z0-9]` with the `i` flag of
`normalizeNotionId` in helpers.js: ASCII letters and digits survive the strip. -/
def isAsciiAlphanum (c : Char) : Bool :=
  c.isAlpha || c.isDigit

/-- The `cleaned` value of helpers.js `normalizeNotionId`:
`String(raw).replace(/[^a-z0-9]/gi, '').toLowerCase()`. -/
def cleanedId (raw : String) : List Char :=
  (raw.data.filter isAsciiAlphanum).map Char.toLower

/-- The 8-4-4-4-12 dashed regrouping template of `normalizeNotionId`. -/
def dashUuid (cleaned : List Char) : String :=
  String.mk (cleaned.take 8) ++ "-" ++
  String.mk ((cleaned.drop 8).take 4) ++ "-" ++
  String.mk ((cleaned.drop 12).take 4) ++ "-" ++
  String.mk ((cleaned.drop 16).take 4) ++ "-" ++
  String.mk (cleaned.drop 20)

/-- helpers.js `normalizeNotionId`: `null` (here `none`) for a falsy input,
the raw string unchanged when the cleaned form is not exactly 32 characters,
otherwise the cleaned lowercased id regrouped as 8-4-4-4-12. -/
def normalizeNotionId (raw : String) : Option String :=
  if raw = "" then none
  else
    let cleaned := cleanedId raw
    if cleaned.length ≠ 32 then some raw
    else some (dashUuid cleaned)

/-- Token type of sync.js `tokenize` (the `TokenType` enum; a FILTER token
carries its `property:operator:value` triple). -/
inductive Token where
  | lparen
  | rparen
  | and
  | or
  | filter (property operator value : String)
  | eof
deriving DecidableEq, Repr

/-- Models `JSON.stringify` of a token record `\x7b type, value \x7d`, as interpolated into the
parser's error messages (escaping of quotes embedded in user strings is not
reproduced; no verified claim depends on these messages). -/
def tokenJson : Token → String
  | .lparen => "\x7b\"type\":\"LPAREN\",\"value\":\"(\"\x7d"
  | .rparen => "\x7b\"type\":\"RPAREN\",\"value\":\")\"\x7d"
  | .and => "\x7b\"type\":\"AND\",\"value\":\"AND\"\x7d"
  | .or => "\x7b\"type\":\"OR\",\"value\":\"OR\"\x7d"
  | .filter p o v =>
      "\x7b\"type\":\"FILTER\",\"value\":\x7b\"property\":\"" ++ p ++
      "\",\"operator\":\"" ++ o ++ "\",\"value\":\"" ++ v ++ "\"\x7d\x7d"
  | .eof => "\x7b\"type\":\"EOF\",\"value\":null\x7d"

/-- Word-boundary test after a matched keyword: `\b` holds at end of input or
before a non-word character. -/
def boundaryAfter : List Char → Bool
  | [] => true
  | c :: _ => !isWordChar c

/-- The regex `/^(AND|and)\b/` of sync.js `tokenize`: only the two exact-case
spellings match. -/
def andKeywordMatch : List Char → Bool
  | c1 :: c2 :: c3 :: rest =>
      ((c1 = 'A' && c2 = 'N' && c3 = 'D') || (c1 = 'a' && c2 = 'n' && c3 = 'd')) &&
      boundaryAfter rest
  | _ => false

/-- The regex `/^(OR|or)\b/` of sync.js `tokenize`. -/
def orKeywordMatch : List Char → Bool
  | c1 :: c2 :: rest =>
      ((c1 = 'O' && c2 = 'R') || (c1 = 'o' && c2 = 'r')) && boundaryAfter rest
  | _ => false

/-- The regex `/^(AND|and|OR|or)\b/` used inside `parseFilterExpression`. -/
def keywordHere (cs : List Char) : Bool :=
  andKeywordMatch cs || orKeywordMatch cs

/-- The scanning loop of sync.js `parseFilterExpression`. State: remaining
characters, the `parts` array, `currentPart`, `inQuotes`, `quoteChar`,
`colonCount`, and the previously consumed character (`none` exactly when
`i === startIndex`, so the backslash look-behind of the quote test is
faithful). Returns the parts, the pending current part, and the unconsumed
suffix (the `endIndex` of the source). The in-quotes fall-through of the
source's quote branch (a quote of the other kind while inside quotes) lands
in the `currentPart += char` case, which is written out directly here. -/
def parseFilterAux : List Char → List String → String → Bool → Option Char →
    Nat → Option Char → (List String × String × List Char)
  | [], parts, cur, _, _, _, _ => (parts, cur, [])
  | c :: rest, parts, cur, inQuotes, quoteChar, colonCount, prev =>
    if (c = '"' || c = singleQuoteChar) &&
        (match prev with | none => true | some p => p ≠ backslashChar) then
      if !inQuotes then
        parseFilterAux rest parts cur true (some c) colonCount (some c)
      else if quoteChar = some c then
        parseFilterAux rest parts cur false none colonCount (some c)
      else
        -- in quotes, a quote of the other kind: captured literally
        parseFilterAux rest parts (cur.push c) inQuotes quoteChar colonCount (some c)
    else if inQuotes then
      parseFilterAux rest parts (cur.push c) inQuotes quoteChar colonCount (some c)
    else if c = ':' then
      if colonCount ≥ 2 then
        parseFilterAux rest parts (cur.push c) inQuotes quoteChar colonCount (some c)
      else
        parseFilterAux rest (parts ++ [cur]) "" inQuotes quoteChar (colonCount + 1) (some c)
    else if isJsSpace c || c = '(' || c = ')' then
      (parts, cur, c :: rest)
    else if keywordHere (c :: rest) then
      (parts, cur, c :: rest)
    else
      parseFilterAux rest parts (cur.push c) inQuotes quoteChar colonCount (some c)

/-- sync.js `parseFilterExpression`: scan a triple starting at the given
suffix; `none` when the exactly-three-nonempty-parts shape cannot be formed
(`value === undefined` is impossible once three parts exist and is not
re-checked). -/
def parseFilterExpr (cs : List Char) : Option ((String × String × String) × List Char) :=
  let scanned := parseFilterAux cs [] "" false none 0 none
  let parts := if scanned.2.1 ≠ "" then scanned.1 ++ [scanned.2.1] else scanned.1
  match parts, scanned.2.2 with
  | [p, o, v], rest =>
      if p ≠ "" && o ≠ "" then some ((jsTrim p, jsTrim o, jsTrim v), rest)
      else none
  | _, _ => none

/-- The scanning loop of sync.js `tokenize`, over the trimmed input. `pos` is
the 0-based index in the trimmed string, used only for the error message. The
fuel argument only serves termination; `tokenize` supplies one unit per
character plus one, which is always sufficient because every emitted token
consumes at least one character. -/
def tokenizeLoop : Nat → Nat → List Char → Except String (List Token)
  | 0, _, _ => .error "tokenizer fuel exhausted"
  | _ + 1, _, [] => .ok [Token.eof]
  | fuel + 1, pos, c :: rest =>
    if isJsSpace c then tokenizeLoop fuel (pos + 1) rest
    else if c = '(' then
      match tokenizeLoop fuel (pos + 1) rest with
      | .error e => .error e
      | .ok ts => .ok (Token.lparen :: ts)
    else if c = ')' then
      match tokenizeLoop fuel (pos + 1) rest with
      | .error e => .error e
      | .ok ts => .ok (Token.rparen :: ts)
    else if andKeywordMatch (c :: rest) then
      match tokenizeLoop fuel (pos + 3) ((c :: rest).drop 3) with
      | .error e => .error e
      | .ok ts => .ok (Token.and :: ts)
    else if orKeywordMatch (c :: rest) then
      match tokenizeLoop fuel (pos + 2) ((c :: rest).drop 2) with
      | .error e => .error e
      | .ok ts => .ok (Token.or :: ts)
    else
      match parseFilterExpr (c :: rest) with
      | some ((p, o, v), rest2) =>
        match tokenizeLoop fuel (pos + ((c :: rest).length - rest2.length)) rest2 with
        | .error e => .error e
        | .ok ts => .ok (Token.filter p o v :: ts)
      | none =>
        .error ("Unexpected character at position " ++ toString pos ++ ": \"" ++
                String.mk [c] ++ "\"")

/-- sync.js `tokenize`: trim, scan, with a trailing EOF token. -/
def tokenize (s : String) : Except String (List Token) :=
  let cs := jsTrimList s.data
  tokenizeLoop (cs.length + 1) 0 cs

/-! The AST of sync.js `FilterParser` (leaf `filter` nodes and n-ary
`and`/`or` nodes). The child sequence is a dedicated mutual inductive so that
every traversal below is structurally recursive and computes by `rfl`. -/
mutual
inductive Ast where
  | filter (property operator value : String)
  | and (filters : AstList)
  | or (filters : AstList)
inductive AstList where
  | nil
  | cons (head : Ast) (tail : AstList)
end

/-- Concatenation on child sequences (`Array.prototype.push`). -/
def AstList.append : AstList → AstList → AstList
  | .nil, ys => ys
  | .cons x xs, ys => .cons x (AstList.append xs ys)

def AstList.length : AstList → Nat
  | .nil => 0
  | .cons _ xs => 1 + AstList.length xs

def AstList.ofList : List Ast → AstList
  | [] => .nil
  | a :: as => .cons a (AstList.ofList as)

/-- The AND-folding step of `parseAndExpression`: if the accumulator is
already an `and` node, push the new operand, else start a binary `and`. -/
def combineAnd (left right : Ast) : Ast :=
  match left with
  | .and fs => .and (fs.append (.cons right .nil))
  | _ => .and (.cons left (.cons right .nil))

/-- The OR-folding step of `parseOrExpression`. -/
def combineOr (left right : Ast) : Ast :=
  match left with
  | .or fs => .or (fs.append (.cons right .nil))
  | _ => .or (.cons left (.cons right .nil))

namespace FilterParser

/-- Error used where the JS parser would read `.type` of `undefined`
(current position past the end of the token array); unreachable on token
lists produced by `tokenize`, which always end in EOF. -/
def missingTokenMsg : String :=
  "TypeError: cannot read property type of undefined"

def fuelMsg : String := "parser fuel exhausted"

/-! sync.js `FilterParser`, with the mutable cursor replaced by passing the
remaining token list, and a fuel argument for termination only (`parse`
supplies more than the maximal possible call depth). `parseAndLoop` /
`parseOrLoop` are the `while` loops of `parseAndExpression` /
`parseOrExpression`. -/
mutual

def parsePrimary : Nat → List Token → Except String (Ast × List Token)
  | 0, _ => .error fuelMsg
  | _ + 1, Token.filter p o v :: rest => .ok (Ast.filter p o v, rest)
  | fuel + 1, Token.lparen :: rest =>
    match parseAndExpression fuel rest with
    | .error e => .error e
    | .ok (expr, r) =>
      match r with
      | Token.rparen :: r2 => .ok (expr, r2)
      | _ => .error "Expected closing parenthesis"
  | _ + 1, t :: _ => .error ("Unexpected token: " ++ tokenJson t)
  | _ + 1, [] => .error missingTokenMsg

def parseOrExpression : Nat → List Token → Except String (Ast × List Token)
  | 0, _ => .error fuelMsg
  | fuel + 1, ts =>
    match parsePrimary fuel ts with
    | .error e => .error e
    | .ok (left, r) => parseOrLoop fuel left r

def parseOrLoop : Nat → Ast → List Token → Except String (Ast × List Token)
  | 0, _, _ => .error fuelMsg
  | fuel + 1, left, Token.or :: rest =>
    match parsePrimary fuel rest with
    | .error e => .error e
    | .ok (right, r) => parseOrLoop fuel (combineOr left right) r
  | _ + 1, _, [] => .error missingTokenMsg
  | _ + 1, left, ts => .ok (left, ts)

def parseAndExpression : Nat → List Token → Except String (Ast × List Token)
  | 0, _ => .error fuelMsg
  | fuel + 1, ts =>
    match parseOrExpression fuel ts with
    | .error e => .error e
    | .ok (left, r) => parseAndLoop fuel left r

def parseAndLoop : Nat → Ast → List Token → Except String (Ast × List Token)
  | 0, _, _ => .error fuelMsg
  | fuel + 1, left, Token.and :: rest =>
    match parseOrExpression fuel rest with
    | .error e => .error e
    | .ok (right, r) => parseAndLoop fuel (combineAnd left right) r
  | _ + 1, _, [] => .error missingTokenMsg
  | _ + 1, left, ts => .ok (left, ts)

end

/-- sync.js `FilterParser.parse`: parse an `andExpression` and require the
next token to be EOF. -/
def parse (tokens : List Token) : Except String Ast :=
  match parseAndExpression (3 * tokens.length + 3) tokens with
  | .error e => .error e
  | .ok (ast, r) =>
    match r with
    | Token.eof :: _ => .ok ast
    | t :: _ => .error ("Unexpected token after expression: " ++ tokenJson t)
    | [] => .error missingTokenMsg

end FilterParser

def depthMsg : String := "Filter nesting exceeds maximum depth of 2 levels"

/-! sync.js `validateNestingDepth`: leaves return immediately; a connective
node at depth greater than 2 throws; otherwise the children are validated at
depth + 1. -/
mutual
def validateNestingDepth : Ast → Nat → Except String Unit
  | .filter _ _ _, _ => .ok ()
  | .and fs, currentDepth =>
    if currentDepth > 2 then .error depthMsg
    else validateDepthList fs (currentDepth + 1)
  | .or fs, currentDepth =>
    if currentDepth > 2 then .error depthMsg
    else validateDepthList fs (currentDepth + 1)
def validateDepthList : AstList → Nat → Except String Unit
  | .nil, _ => .ok ()
  | .cons a as, d =>
    match validateNestingDepth a d with
    | .error e => .error e
    | .ok _ => validateDepthList as d
end

/-- sync.js `PROPERTY_TYPE_TO_API_KEY`. -/
def PROPERTY_TYPE_TO_API_KEY (t : String) : Option String :=
  if t = "title" then some "title"
  else if t = "rich_text" then some "rich_text"
  else if t = "number" then some "number"
  else if t = "select" then some "select"
  else if t = "multi_select" then some "multi_select"
  else if t = "date" then some "date"
  else if t = "people" then some "people"
  else if t = "files" then some "files"
  else if t = "checkbox" then some "checkbox"
  else if t = "url" then some "url"
  else if t = "email" then some "email"
  else if t = "phone_number" then some "phone_number"
  else if t = "formula" then some "formula"
  else if t = "relation" then some "relation"
  else if t = "rollup" then some "rollup"
  else if t = "created_time" then some "created_time"
  else if t = "created_by" then some "created_by"
  else if t = "last_edited_time" then some "last_edited_time"
  else if t = "last_edited_by" then some "last_edited_by"
  else if t = "status" then some "status"
  else none

/-- sync.js `VALID_OPERATORS` (property lookup in the JS object: `none`
models `undefined`). -/
def VALID_OPERATORS (t : String) : Option (List String) :=
  if t = "title" then
    some ["equals", "does_not_equal", "contains", "does_not_contain", "starts_with", "ends_with", "is_empty", "is_not_empty"]
  else if t = "rich_text" then
    some ["equals", "does_not_equal", "contains", "does_not_contain", "starts_with", "ends_with", "is_empty", "is_not_empty"]
  else if t = "number" then
    some ["equals", "does_not_equal", "greater_than", "greater_than_or_equal_to", "less_than", "less_than_or_equal_to", "is_empty", "is_not_empty"]
  else if t = "checkbox" then
    some ["equals", "does_not_equal"]
  else if t = "select" then
    some ["equals", "does_not_equal", "is_empty", "is_not_empty"]
  else if t = "multi_select" then
    some ["contains", "does_not_contain", "is_empty", "is_not_empty"]
  else if t = "status" then
    some ["equals", "does_not_equal", "is_empty", "is_not_empty"]
  else if t = "date" then
    some ["equals", "before", "after", "on_or_before", "on_or_after", "is_empty", "is_not_empty", "past_week", "past_month", "past_year", "next_week", "next_month", "next_year", "this_week"]
  else if t = "people" then
    some ["contains", "does_not_contain", "is_empty", "is_not_empty"]
  else if t = "files" then
    some ["is_empty", "is_not_empty"]
  else if t = "relation" then
    some ["contains", "does_not_contain", "is_empty", "is_not_empty"]
  else if t = "created_time" then
    some ["equals", "before", "after", "on_or_before", "on_or_after", "is_empty", "is_not_empty", "past_week", "past_month", "past_year", "next_week", "next_month", "next_year", "this_week"]
  else if t = "last_edited_time" then
    some ["equals", "before", "after", "on_or_before", "on_or_after", "is_empty", "is_not_empty", "past_week", "past_month", "past_year", "next_week", "next_month", "next_year", "this_week"]
  else none

/-- sync.js `EMPTY_VALUE_OPERATORS`. -/
def EMPTY_VALUE_OPERATORS : List String :=
  ["is_empty", "is_not_empty", "past_week", "past_month", "past_year",
   "next_week", "next_month", "next_year", "this_week"]

/-- sync.js `ID_OPERATORS`. -/
def ID_OPERATORS : List String := ["equals", "does_not_equal", "greater_than"]

/-- A compiled (Notion API) inner filter value: a string, a number, a
boolean, or the empty object used by the relative-date operators. -/
inductive NotionValue where
  | str (s : String)
  | num (n : Int)
  | bool (b : Bool)
  | emptyObj
deriving DecidableEq, Repr

/-- Models `Number(value)` for the integer literals this module receives
(optional sign and decimal digits; `''` coerces to 0). Fractional, exponent
and hex forms are not modelled — no verified claim evaluates them. `none`
models `NaN`. -/
def jsNumber (s : String) : Option Int :=
  match jsTrimList s.data with
  | [] => some 0
  | c :: rest =>
    if c = '-' then
      if rest ≠ [] && rest.all Char.isDigit then
        some (-(Int.ofNat (rest.foldl (fun acc d => acc * 10 + (d.toNat - 48)) 0)))
      else none
    else if c = '+' then
      if rest ≠ [] && rest.all Char.isDigit then
        some (Int.ofNat (rest.foldl (fun acc d => acc * 10 + (d.toNat - 48)) 0))
      else none
    else if (c :: rest).all Char.isDigit then
      some (Int.ofNat ((c :: rest).foldl (fun acc d => acc * 10 + (d.toNat - 48)) 0))
    else none

/-- sync.js `convertFilterValue`. -/
def convertFilterValue (propertyType operator value : String) : Except String NotionValue :=
  if operator = "is_empty" || operator = "is_not_empty" then .ok (.bool true)
  else if EMPTY_VALUE_OPERATORS.contains operator then .ok .emptyObj
  else if propertyType = "number" then
    match jsNumber value with
    | none => .error ("Invalid number value for property: \"" ++ value ++ "\"")
    | some n => .ok (.num n)
  else if propertyType = "checkbox" then
    if value = "true" then .ok (.bool true)
    else if value = "false" then .ok (.bool false)
    else .error ("Checkbox value must be \"true\" or \"false\", got: \"" ++ value ++ "\"")
  else if propertyType = "people" || propertyType = "relation" then
    .ok (.str ((normalizeNotionId value).getD value))
  else
    .ok (.str value)

/-- The property-name → property-type mapping retrieved from the database
schema, in insertion order (a JS object with string keys). -/
abbrev Schema := List (String × String)

/-! Compiled Notion API filter objects: `leaf` is
`{property, [apiKey]: {[operator]: value}}`, `timestampLeaf` is
`{timestamp: property, [property]: {[operator]: value}}`, `idLeaf` is
`{property: 'id', id: {[operator]: value}}`, and `and`/`or` carry their
compiled children in order. -/
mutual
inductive Compiled where
  | leaf (property apiKey operator : String) (value : NotionValue)
  | timestampLeaf (property operator : String) (value : NotionValue)
  | idLeaf (operator : String) (value : NotionValue)
  | and (filters : CompiledList)
  | or (filters : CompiledList)
inductive CompiledList where
  | nil
  | cons (head : Compiled) (tail : CompiledList)
end

/-- sync.js `convertTimestampFilter`. The `none` branch models the TypeError
the JS would raise interpolating `validOps.join` on `undefined`; it is
unreachable because the function is only called for the two timestamp keys. -/
def convertTimestampFilter (property operator value : String) : Except String Compiled :=
  match VALID_OPERATORS property with
  | none => .error "TypeError: cannot read property join of undefined"
  | some validOps =>
    if !(validOps.contains operator) then
      .error ("Operator \"" ++ operator ++ "\" is not valid for timestamp property \"" ++
              property ++ "\". Valid operators: " ++ joinComma validOps)
    else
      .ok (.timestampLeaf property operator
        (if operator = "is_empty" || operator = "is_not_empty" then .bool true
         else if EMPTY_VALUE_OPERATORS.contains operator then .emptyObj
         else .str value))

/-- sync.js `convertIdFilter`. -/
def convertIdFilter (operator value : String) : Except String Compiled :=
  if !(ID_OPERATORS.contains operator) then
    .error ("Operator \"" ++ operator ++ "\" is not valid for property \"id\". Valid operators: " ++
            joinComma ID_OPERATORS)
  else
    .ok (.idLeaf operator (.str ((normalizeNotionId value).getD value)))

/-- The not-found message of sync.js `convertSingleFilter`. -/
def propertyNotFoundMsg (property : String) (propertySchema : Schema) : String :=
  "Property \"" ++ property ++ "\" not found in database schema. Available properties: " ++
  joinComma (propertySchema.map Prod.fst)

/-- The invalid-operator message of sync.js `convertSingleFilter`
(`validOps ? validOps.join(', ') : 'none'`). -/
def operatorNotValidMsg (operator property propertyType : String) : String :=
  "Operator \"" ++ operator ++ "\" is not valid for property \"" ++ property ++
  "\" (type: " ++ propertyType ++ "). Valid operators: " ++
  (match VALID_OPERATORS propertyType with
   | some ops => joinComma ops
   | none => "none")

/-- Membership in an optional operator list: the negation of the source test of the shape not-validOps-or-not-includes. -/
def validOpsContain (validOps : Option (List String)) (operator : String) : Bool :=
  match validOps with
  | none => false
  | some ops => ops.contains operator

/-- sync.js `convertSingleFilter`. A schema entry whose type is the empty
string is falsy in JS and takes the not-found branch, exactly as
`if (!propertyType)` does. -/
def convertSingleFilter (property operator value : String) (propertySchema : Schema) :
    Except String Compiled :=
  if property = "created_time" || property = "last_edited_time" then
    convertTimestampFilter property operator value
  else if property = "id" then
    convertIdFilter operator value
  else
    match List.lookup property propertySchema with
    | none => .error (propertyNotFoundMsg property propertySchema)
    | some propertyType =>
      if propertyType = "" then .error (propertyNotFoundMsg property propertySchema)
      else if !(validOpsContain (VALID_OPERATORS propertyType) operator) then
        .error (operatorNotValidMsg operator property propertyType)
      else
        match PROPERTY_TYPE_TO_API_KEY propertyType with
        | none => .error ("Unsupported property type: " ++ propertyType)
        | some apiKey =>
          match convertFilterValue propertyType operator value with
          | .error e => .error e
          | .ok v => .ok (.leaf property apiKey operator v)

/-! sync.js `astToNotionFilter`: leaves go through `convertSingleFilter`,
connective nodes compile their children in order (the first child error
propagates, as a JS exception in `Array.prototype.map` would). -/
mutual
def astToNotionFilter : Ast → Schema → Except String Compiled
  | .filter p o v, s => convertSingleFilter p o v s
  | .and fs, s =>
    match compileList fs s with
    | .error e => .error e
    | .ok cs => .ok (.and cs)
  | .or fs, s =>
    match compileList fs s with
    | .error e => .error e
    | .ok cs => .ok (.or cs)
def compileList : AstList → Schema → Except String CompiledList
  | .nil, _ => .ok .nil
  | .cons a as, s =>
    match astToNotionFilter a s with
    | .error e => .error e
    | .ok c =>
      match compileList as s with
      | .error e => .error e
      | .ok cs => .ok (.cons c cs)
end

/-- sync.js `parseFilter`: null/empty/blank input short-circuits to null
(`none`); otherwise tokenize → parse → validate depth → compile, propagating
the first error. -/
def parseFilter (filterString : Option String) (propertySchema : Schema) :
    Except String (Option Compiled) :=
  match filterString with
  | none => .ok none
  | some s =>
    if jsTrim s = "" then .ok none
    else
      match tokenize s with
      | .error e => .error e
      | .ok tokens =>
        match FilterParser.parse tokens with
        | .error e => .error e
        | .ok ast =>
          match validateNestingDepth ast 0 with
          | .error e => .error e
          | .ok _ =>
            match astToNotionFilter ast propertySchema with
            | .error e => .error e
            | .ok nf => .ok (some nf)

/-!
Spec-side definitions: these follow the wording of the specification's
claims and are compared against the source-derived definitions above.
-/

/-!
C3's depth predicate, from the spec's words: no `and`/`or` node may lie at
connective depth 3 or more (the node currently inspected is at depth `d`;
`filter` leaves never increment depth and are always acceptable). -/
mutual
def specDepthOk : Ast → Nat → Bool
  | .filter _ _ _, _ => true
  | .and fs, d => decide (d ≤ 2) && specDepthOkList fs (d + 1)
  | .or fs, d => decide (d ≤ 2) && specDepthOkList fs (d + 1)
def specDepthOkList : AstList → Nat → Bool
  | .nil, _ => true
  | .cons a as, d => specDepthOk a d && specDepthOkList as d
end

/-!
C2's flattening invariant, from the spec's words: every `and`/`or` node of
the AST has at least 2 children. -/
mutual
def wfAst : Ast → Bool
  | .filter _ _ _ => true
  | .and fs => decide (2 ≤ AstList.length fs) && wfAstList fs
  | .or fs => decide (2 ≤ AstList.length fs) && wfAstList fs
def wfAstList : AstList → Bool
  | .nil => true
  | .cons a as => wfAst a && wfAstList as
end

/-- The relative-date operators named by the spec (C6): the argument-less
operators other than the two emptiness checks. -/
def relativeDateOps : List String :=
  ["past_week", "past_month", "past_year", "next_week", "next_month",
   "next_year", "this_week"]

/-- Token sequence `AND FILTER AND FILTER ...` continuing an AND chain,
terminated by EOF (spec-side shape for C2's n-ary flattening statement). -/
def andChainRestTokens : List (String × String × String) → List Token
  | [] => [Token.eof]
  | (p, o, v) :: rest => Token.and :: Token.filter p o v :: andChainRestTokens rest

/-- Token sequence of `n` FILTER operands joined by AND, plus EOF. -/
def andChainTokens : List (String × String × String) → List Token
  | [] => [Token.eof]
  | (p, o, v) :: rest => Token.filter p o v :: andChainRestTokens rest

/-- Token sequence `OR FILTER OR FILTER ...` continuing an OR chain. -/
def orChainRestTokens : List (String × String × String) → List Token
  | [] => [Token.eof]
  | (p, o, v) :: rest => Token.or :: Token.filter p o v :: orChainRestTokens rest

/-- Token sequence of `n` FILTER operands joined by OR, plus EOF. -/
def orChainTokens : List (String × String × String) → List Token
  | [] => [Token.eof]
  | (p, o, v) :: rest => Token.filter p o v :: orChainRestTokens rest

/-- The leaf AST nodes of a chain's operands, in original order. -/
def leavesOf : List (String × String × String) → AstList
  | [] => .nil
  | (p, o, v) :: rest => .cons (Ast.filter p o v) (leavesOf rest)

/-- A deeply nested AST (connectives at depths 0, 1, 2 and 3), used as the
concrete instance for C3's witness. -/
def deepAst : Ast :=
  .and (.cons
    (.or (.cons
      (.and (.cons
        (.or (.cons (.filter "a" "b" "c") .nil))
        .nil))
      .nil))
    .nil)

/-!
Helper lemmas shared by the claim theorems.
-/

mutual
theorem validate_ok_iff : ∀ (a : Ast) (d : Nat),
    (validateNestingDepth a d = .ok ()) ↔ (specDepthOk a d = true)
  | .filter p o v, d => by
      simp [validateNestingDepth, specDepthOk]
  | .and fs, d => by
      by_cases hd : d > 2
      · have hle : ¬(d ≤ 2) := by omega
        simp [validateNestingDepth, specDepthOk, hd, hle]
      · have hle : d ≤ 2 := by omega
        have hiff := validateList_ok_iff fs (d + 1)
        simp [validateNestingDepth, specDepthOk, hd, hle, hiff]
  | .or fs, d => by
      by_cases hd : d > 2
      · have hle : ¬(d ≤ 2) := by omega
        simp [validateNestingDepth, specDepthOk, hd, hle]
      · have hle : d ≤ 2 := by omega
        have hiff := validateList_ok_iff fs (d + 1)
        simp [validateNestingDepth, specDepthOk, hd, hle, hiff]
theorem validateList_ok_iff : ∀ (l : AstList) (d : Nat),
    (validateDepthList l d = .ok ()) ↔ (specDepthOkList l d = true)
  | .nil, d => by
      simp [validateDepthList, specDepthOkList]
  | .cons a as, d => by
      have h1 := validate_ok_iff a d
      have h2 := validateList_ok_iff as d
      cases hv : validateNestingDepth a d with
      | error e =>
        have hs : ¬(specDepthOk a d = true) := by
          rw [← h1, hv]; intro hc; cases hc
        simp [validateDepthList, specDepthOkList, hv, hs]
      | ok u =>
        cases u
        have hs : specDepthOk a d = true := h1.mp hv
        simp [validateDepthList, specDepthOkList, hv, hs, h2]
end

mutual
theorem validate_ok_or_err : ∀ (a : Ast) (d : Nat),
    validateNestingDepth a d = .ok () ∨ validateNestingDepth a d = .error depthMsg
  | .filter p o v, d => Or.inl rfl
  | .and fs, d => by
      by_cases hd : d > 2
      · right; simp [validateNestingDepth, hd]
      · have h := validateList_ok_or_err fs (d + 1)
        simp [validateNestingDepth, hd]
        exact h
  | .or fs, d => by
      by_cases hd : d > 2
      · right; simp [validateNestingDepth, hd]
      · have h := validateList_ok_or_err fs (d + 1)
        simp [validateNestingDepth, hd]
        exact h
theorem validateList_ok_or_err : ∀ (l : AstList) (d : Nat),
    validateDepthList l d = .ok () ∨ validateDepthList l d = .error depthMsg
  | .nil, d => Or.inl rfl
  | .cons a as, d => by
      have h1 := validate_ok_or_err a d
      have h2 := validateList_ok_or_err as d
      rcases h1 with h1 | h1
      · simp [validateDepthList, h1]
        exact h2
      · simp [validateDepthList, h1]
end

/-!
Claim theorems.
-/

/-- C3: `validateNestingDepth` returns normally iff no `and`/`or` node lies
at connective depth 3 or more below the root (root 0, children 1,
grandchildren 2 all accepted — `specDepthOk`), otherwise it fails with the
fixed message containing "exceeds maximum depth"; `filter` leaves never
trigger the failure at any depth. -/
theorem C3_nesting_depth_validation :
    ∀ ast : Ast,
      ((validateNestingDepth ast 0 = .ok ()) ↔ specDepthOk ast 0 = true) ∧
      (validateNestingDepth ast 0 ≠ .ok () →
        validateNestingDepth ast 0 = .error depthMsg) ∧
      strContains depthMsg "exceeds maximum depth" = true ∧
      (∀ (d : Nat) (p o v : String), validateNestingDepth (.filter p o v) d = .ok ()) := by
  intro ast
  refine ⟨validate_ok_iff ast 0, ?_, by rfl, fun d p o v => rfl⟩
  intro h
  rcases validate_ok_or_err ast 0 with h1 | h1
  · exact absurd h1 h
  · exact h1

/-- C3 witness: a 4-deep connective chain is rejected with the fixed
depth message. -/
theorem C3_witness : validateNestingDepth deepAst 0 = .error depthMsg :=
  (C3_nesting_depth_validation deepAst).2.1 (by simp [deepAst, validateNestingDepth, validateDepthList, depthMsg])

/-- C9: empty input short-circuits — `parseFilter` of `null`/`undefined`
(`none`), of the empty string, and of any string that trims to empty returns
`null` (`ok none`) for every schema, raising no error. -/
theorem C9_empty_input_short_circuit :
    ∀ S : Schema,
      parseFilter none S = .ok none ∧
      parseFilter (some "") S = .ok none ∧
      ∀ s : String, jsTrim s = "" → parseFilter (some s) S = .ok none := by
  intro S
  refine ⟨rfl, rfl, ?_⟩
  intro s h
  simp [parseFilter, h]

/-- C9 witness: the whitespace-only string. -/
theorem C9_witness :
    jsTrim "   " = "" ∧ parseFilter (some "   ") [] = .ok none :=
  ⟨rfl, (C9_empty_input_short_circuit []).2.2 "   " rfl⟩

/-- C5: colon handling in filter triples — outside quotes, a colon seen
after the second separator is appended to the value part
(`currentPart += char`), while a colon seen before that acts as a part
separator; consequently the timestamp literal passes through whole as the
value of a single FILTER token. -/
theorem C5_colon_handling :
    (tokenize "Date:after:2025-01-01T00:00:00Z" =
      .ok [Token.filter "Date" "after" "2025-01-01T00:00:00Z", Token.eof]) ∧
    (∀ (rest : List Char) (parts : List String) (cur : String)
        (quoteChar : Option Char) (colonCount : Nat) (prev : Option Char),
        2 ≤ colonCount →
        parseFilterAux (':' :: rest) parts cur false quoteChar colonCount prev =
          parseFilterAux rest parts (cur.push ':') false quoteChar colonCount (some ':')) ∧
    (∀ (rest : List Char) (parts : List String) (cur : String)
        (quoteChar : Option Char) (colonCount : Nat) (prev : Option Char),
        colonCount < 2 →
        parseFilterAux (':' :: rest) parts cur false quoteChar colonCount prev =
          parseFilterAux rest (parts ++ [cur]) "" false quoteChar (colonCount + 1) (some ':')) := by
  refine ⟨rfl, ?_, ?_⟩
  · intro rest parts cur quoteChar colonCount prev h
    have h0 : ¬((':' : Char) = '"') := by decide
    have h1 : ¬((':' : Char) = singleQuoteChar) := by decide
    simp [parseFilterAux, h0, h1, h]
  · intro rest parts cur quoteChar colonCount prev h
    have h0 : ¬((':' : Char) = '"') := by decide
    have h1 : ¬((':' : Char) = singleQuoteChar) := by decide
    have h2 : ¬(2 ≤ colonCount) := by omega
    simp [parseFilterAux, h0, h1, h2]

/-- C5 witness: the third colon of a triple is appended to the value. -/
theorem C5_witness :
    parseFilterAux [':'] [] "x" false none 2 none =
      parseFilterAux [] [] (String.push "x" ':') false none 2 (some ':') :=
  C5_colon_handling.2.1 [] [] "x" none 2 none (by decide)

/-- C6: argument-less operator conversion — `is_empty`/`is_not_empty`
compile to the boolean `true` whatever the literal value text and whatever
the property type, the seven relative-date operators compile to the empty
object, the same holds for the timestamp pseudo-properties, and the two
concrete `is_empty` inputs compile identically. -/
theorem C6_argumentless_operators :
    (∀ t op v : String, (op = "is_empty" ∨ op = "is_not_empty") →
        convertFilterValue t op v = .ok (.bool true)) ∧
    (∀ t op v : String, op ∈ relativeDateOps →
        convertFilterValue t op v = .ok .emptyObj) ∧
    (∀ p op v : String, (p = "created_time" ∨ p = "last_edited_time") →
        ((op = "is_empty" ∨ op = "is_not_empty") →
          convertTimestampFilter p op v = .ok (.timestampLeaf p op (.bool true))) ∧
        (op ∈ relativeDateOps →
          convertTimestampFilter p op v = .ok (.timestampLeaf p op .emptyObj))) ∧
    parseFilter (some "Name:is_empty:true") [("Name", "title")] =
      parseFilter (some "Name:is_empty:false") [("Name", "title")] ∧
    parseFilter (some "Name:is_empty:true") [("Name", "title")] =
      .ok (some (.leaf "Name" "title" "is_empty" (.bool true))) := by
  refine ⟨?_, ?_, ?_, rfl, rfl⟩
  · intro t op v h
    rcases h with rfl | rfl <;> rfl
  · intro t op v h
    simp only [relativeDateOps, List.mem_cons, List.not_mem_nil, or_false] at h
    rcases h with rfl | rfl | rfl | rfl | rfl | rfl | rfl <;> rfl
  · intro p op v hp
    constructor
    · intro h
      rcases hp with rfl | rfl <;> rcases h with rfl | rfl <;> rfl
    · intro h
      simp only [relativeDateOps, List.mem_cons, List.not_mem_nil, or_false] at h
      rcases hp with rfl | rfl <;>
        (rcases h with rfl | rfl | rfl | rfl | rfl | rfl | rfl <;> rfl)

/-- C6 witness: `is_empty` on a number property ignores the value text. -/
theorem C6_witness :
    convertFilterValue "number" "is_empty" "whatever" = .ok (.bool true) :=
  C6_argumentless_operators.1 "number" "is_empty" "whatever" (Or.inl rfl)

/-- C7 counterexample: a 32-character alphanumeric value with no hexadecimal
digit at all ("z" × 32). The claim says every value other than a 32-hex-digit
id passes through unchanged, but the code only checks for 32 alphanumeric
characters, so this value is rewritten into dashed form instead. -/
theorem C7_counterexample :
    convertFilterValue "people" "contains" "zzzzzzzzzzzzzzzzzzzzzzzzzzzzzzzz" =
      .ok (.str "zzzzzzzz-zzzz-zzzz-zzzz-zzzzzzzzzzzz") ∧
    ("zzzzzzzz-zzzz-zzzz-zzzz-zzzzzzzzzzzz" : String) ≠
      "zzzzzzzzzzzzzzzzzzzzzzzzzzzzzzzz" := by
  exact ⟨rfl, by decide⟩

/-- C7 (amended): for people/relation values under a value-taking operator
and for the id pseudo-property, a value whose characters remaining after
stripping non-alphanumerics are exactly 32 ASCII letters or digits (not
necessarily hexadecimal) is rewritten — lowercased — into dashed 8-4-4-4-12
form, and every other value (including 31- or 33-hex-character strings)
passes through unchanged. -/
theorem C7_uuid_normalization :
    (∀ op v : String, op ∉ EMPTY_VALUE_OPERATORS →
      convertFilterValue "people" op v = .ok (.str ((normalizeNotionId v).getD v)) ∧
      convertFilterValue "relation" op v = .ok (.str ((normalizeNotionId v).getD v))) ∧
    (∀ (op v : String) (S : Schema), convertSingleFilter "id" op v S = convertIdFilter op v) ∧
    (∀ op v : String, op ∈ ID_OPERATORS →
      convertIdFilter op v = .ok (.idLeaf op (.str ((normalizeNotionId v).getD v)))) ∧
    (∀ v : String, (normalizeNotionId v).getD v =
      if (cleanedId v).length = 32 then dashUuid (cleanedId v) else v) ∧
    convertFilterValue "people" "contains" "1234567812345678123456781234567" =
      .ok (.str "1234567812345678123456781234567") ∧
    convertFilterValue "people" "contains" "123456781234567812345678123456781" =
      .ok (.str "123456781234567812345678123456781") := by
  refine ⟨?_, ?_, ?_, ?_, rfl, rfl⟩
  · intro op v h
    have h1 : op ≠ "is_empty" := by
      intro e; exact h (by simp [e, EMPTY_VALUE_OPERATORS])
    have h2 : op ≠ "is_not_empty" := by
      intro e; exact h (by simp [e, EMPTY_VALUE_OPERATORS])
    constructor <;> simp [convertFilterValue, h1, h2, h]
  · intro op v S
    rfl
  · intro op v h
    simp [convertIdFilter, h]
  · intro v
    by_cases hv : v = ""
    · subst hv
      have : (cleanedId "").length = 0 := rfl
      simp [normalizeNotionId, this]
    · by_cases hl : (cleanedId v).length = 32
      · simp [normalizeNotionId, hv, hl]
      · simp [normalizeNotionId, hv, hl]

/-- C7 witness: a compact 32-hex id under a relation value is dashed. -/
theorem C7_witness :
    convertFilterValue "relation" "contains" "12345678123456781234567812345678" =
      .ok (.str "12345678-1234-5678-1234-567812345678") := by
  have h := (C7_uuid_normalization.1 "contains" "12345678123456781234567812345678"
    (by decide)).2
  rw [h]
  rfl

/-- Every property type that has an entry in `VALID_OPERATORS` also has an
entry in `PROPERTY_TYPE_TO_API_KEY`, so a leaf that passes both validation
checks never reaches the "Unsupported property type" error. -/
theorem validOps_apiKey :
    ∀ t : String, (VALID_OPERATORS t).isSome = true →
      (PROPERTY_TYPE_TO_API_KEY t).isSome = true := by
  intro t h
  by_cases h1 : t = "title"
  · subst h1; rfl
  by_cases h2 : t = "rich_text"
  · subst h2; rfl
  by_cases h3 : t = "number"
  · subst h3; rfl
  by_cases h4 : t = "checkbox"
  · subst h4; rfl
  by_cases h5 : t = "select"
  · subst h5; rfl
  by_cases h6 : t = "multi_select"
  · subst h6; rfl
  by_cases h7 : t = "status"
  · subst h7; rfl
  by_cases h8 : t = "date"
  · subst h8; rfl
  by_cases h9 : t = "people"
  · subst h9; rfl
  by_cases h10 : t = "files"
  · subst h10; rfl
  by_cases h11 : t = "relation"
  · subst h11; rfl
  by_cases h12 : t = "created_time"
  · subst h12; rfl
  by_cases h13 : t = "last_edited_time"
  · subst h13; rfl
  rw [VALID_OPERATORS] at h
  rw [if_neg h1, if_neg h2, if_neg h3, if_neg h4, if_neg h5, if_neg h6, if_neg h7, if_neg h8, if_neg h9, if_neg h10, if_neg h11, if_neg h12, if_neg h13] at h
  simp at h

/-- C8: for a leaf whose property is not a pseudo-property, compilation
raises exactly when the property is missing from the schema (with the
not-found message listing the schema's property names) or the operator is
outside the type's valid-operator set (with the not-valid message); when the
property resolves and the operator is valid, the validation steps raise
nothing and the result is value conversion wrapped into the leaf object. A
schema entry whose type is the empty string is falsy in JS and behaves as
missing. -/
theorem C8_schema_validation :
    (∀ (p op v : String) (S : Schema),
      ¬(p = "created_time" ∨ p = "last_edited_time" ∨ p = "id") →
      (List.lookup p S = none →
        convertSingleFilter p op v S = .error (propertyNotFoundMsg p S)) ∧
      (∀ t : String, List.lookup p S = some t → t = "" →
        convertSingleFilter p op v S = .error (propertyNotFoundMsg p S)) ∧
      (∀ t : String, List.lookup p S = some t → t ≠ "" →
        validOpsContain (VALID_OPERATORS t) op = false →
        convertSingleFilter p op v S = .error (operatorNotValidMsg op p t)) ∧
      (∀ t : String, List.lookup p S = some t → t ≠ "" →
        validOpsContain (VALID_OPERATORS t) op = true →
        ∃ k : String, PROPERTY_TYPE_TO_API_KEY t = some k ∧
          convertSingleFilter p op v S =
            (match convertFilterValue t op v with
             | .error e => .error e
             | .ok val => .ok (.leaf p k op val)))) ∧
    parseFilter (some "Ghost:equals:x") [("Name", "title")] =
      .error (propertyNotFoundMsg "Ghost" [("Name", "title")]) ∧
    strContains (propertyNotFoundMsg "Ghost" [("Name", "title")])
      "Property \"Ghost\" not found" = true ∧
    parseFilter (some "Priority:contains:5") [("Priority", "number")] =
      .error (operatorNotValidMsg "contains" "Priority" "number") ∧
    strContains (operatorNotValidMsg "contains" "Priority" "number")
      "not valid for property \"Priority\"" = true := by
  refine ⟨?_, rfl, rfl, rfl, rfl⟩
  intro p op v S hp
  push_neg at hp
  obtain ⟨hp1, hp2, hp3⟩ := hp
  refine ⟨?_, ?_, ?_, ?_⟩
  · intro hl
    simp [convertSingleFilter, hp1, hp2, hp3, hl]
  · intro t hl ht
    subst ht
    simp [convertSingleFilter, hp1, hp2, hp3, hl]
  · intro t hl ht hops
    simp [convertSingleFilter, hp1, hp2, hp3, hl, ht, hops]
  · intro t hl ht hops
    have hsome : (VALID_OPERATORS t).isSome = true := by
      cases hv : VALID_OPERATORS t
      · rw [hv] at hops; cases hops
      · rfl
    have hkey := validOps_apiKey t hsome
    cases hk : PROPERTY_TYPE_TO_API_KEY t with
    | none => rw [hk] at hkey; cases hkey
    | some k =>
      refine ⟨k, rfl, ?_⟩
      simp [convertSingleFilter, hp1, hp2, hp3, hl, ht, hops, hk]

/-- C8 witness: the unknown-property case at a concrete input. -/
theorem C8_witness :
    convertSingleFilter "Ghost" "equals" "x" [("Name", "title")] =
      .error (propertyNotFoundMsg "Ghost" [("Name", "title")]) :=
  ((C8_schema_validation.1 "Ghost" "equals" "x" [("Name", "title")]
    (by decide)).1 rfl)

/-- C10: a parenthesized subexpression that parses to an `and` node merges
with a following AND at the enclosing level — the fold step appends into the
existing node — so the parenthesized and the flat spelling produce
identical results for every schema, and the parentheses add no nesting
level. -/
theorem C10_paren_merge :
    (∀ S : Schema,
      parseFilter (some "(A:equals:1 AND B:equals:2) AND C:equals:3") S =
        parseFilter (some "A:equals:1 AND B:equals:2 AND C:equals:3") S) ∧
    (∀ (fs : AstList) (right : Ast),
      combineAnd (.and fs) right = .and (fs.append (.cons right .nil))) ∧
    (∀ (fs : AstList) (right : Ast),
      combineOr (.or fs) right = .or (fs.append (.cons right .nil))) ∧
    FilterParser.parse
        ((tokenize "(A:equals:1 AND B:equals:2) AND C:equals:3").toOption.getD []) =
      .ok (.and (.cons (.filter "A" "equals" "1")
            (.cons (.filter "B" "equals" "2")
              (.cons (.filter "C" "equals" "3") .nil)))) := by
  refine ⟨?_, fun fs right => rfl, fun fs right => rfl, rfl⟩
  intro S
  rfl

/-- C1: operator precedence — AND binds loosest, OR tighter, so the mixed
expression compiles to a top-level `and` whose first child is the `or` of
the A and B leaves and whose second child is the C leaf, for every schema
under which the three leaves compile. -/
theorem C1_precedence :
    ∀ (S : Schema) (cA cB cC : Compiled),
      convertSingleFilter "A" "equals" "1" S = .ok cA →
      convertSingleFilter "B" "equals" "2" S = .ok cB →
      convertSingleFilter "C" "equals" "3" S = .ok cC →
      parseFilter (some "A:equals:1 OR B:equals:2 AND C:equals:3") S =
        .ok (some (.and (.cons (.or (.cons cA (.cons cB .nil)))
                    (.cons cC .nil)))) := by
  intro S cA cB cC hA hB hC
  have h0 : parseFilter (some "A:equals:1 OR B:equals:2 AND C:equals:3") S =
      (match astToNotionFilter
          (.and (.cons (.or (.cons (.filter "A" "equals" "1")
                        (.cons (.filter "B" "equals" "2") .nil)))
                (.cons (.filter "C" "equals" "3") .nil))) S with
       | .error e => .error e
       | .ok nf => .ok (some nf)) := rfl
  rw [h0]
  simp [astToNotionFilter, compileList, hA, hB, hC]

/-- C1 witness: the all-title schema. -/
theorem C1_witness :
    parseFilter (some "A:equals:1 OR B:equals:2 AND C:equals:3")
        [("A", "title"), ("B", "title"), ("C", "title")] =
      .ok (some (.and
        (.cons (.or (.cons (.leaf "A" "title" "equals" (.str "1"))
                (.cons (.leaf "B" "title" "equals" (.str "2")) .nil)))
          (.cons (.leaf "C" "title" "equals" (.str "3")) .nil)))) :=
  C1_precedence [("A", "title"), ("B", "title"), ("C", "title")]
    (.leaf "A" "title" "equals" (.str "1"))
    (.leaf "B" "title" "equals" (.str "2"))
    (.leaf "C" "title" "equals" (.str "3")) rfl rfl rfl

/-- C4 counterexample: the claim's case-insensitive quantification fails —
`And` (mixed case) is not recognized as a connective and tokenization fails
at it — and the keyword check does fire against the tail of an identifier:
`Brand` is split into the value `Br` followed by an AND token. -/
theorem C4_counterexample :
    tokenize "A:equals:1 And B:equals:2" =
      .error "Unexpected character at position 11: \"A\"" ∧
    tokenize "X:equals:Brand" =
      .ok [Token.filter "X" "equals" "Br", Token.and, Token.eof] :=
  ⟨rfl, rfl⟩

/-- C4 (amended): only the exact-case spellings `AND`/`and` and `OR`/`or`
followed by a word boundary are connective keywords; when the scanner stands
at such a match it emits the corresponding token and advances past the
keyword; mixed-case spellings never match. -/
theorem C4_connective_tokens :
    (∀ (fuel pos : Nat) (cs : List Char), andKeywordMatch cs = true →
      tokenizeLoop (fuel + 1) pos cs =
        (match tokenizeLoop fuel (pos + 3) (cs.drop 3) with
         | .error e => .error e
         | .ok ts => .ok (Token.and :: ts))) ∧
    (∀ (fuel pos : Nat) (cs : List Char), orKeywordMatch cs = true →
      tokenizeLoop (fuel + 1) pos cs =
        (match tokenizeLoop fuel (pos + 2) (cs.drop 2) with
         | .error e => .error e
         | .ok ts => .ok (Token.or :: ts))) ∧
    (∀ rest : List Char,
      andKeywordMatch ('A' :: 'N' :: 'D' :: rest) = boundaryAfter rest ∧
      andKeywordMatch ('a' :: 'n' :: 'd' :: rest) = boundaryAfter rest ∧
      andKeywordMatch ('A' :: 'n' :: 'd' :: rest) = false ∧
      andKeywordMatch ('a' :: 'N' :: 'd' :: rest) = false ∧
      orKeywordMatch ('O' :: 'R' :: rest) = boundaryAfter rest ∧
      orKeywordMatch ('o' :: 'r' :: rest) = boundaryAfter rest ∧
      orKeywordMatch ('O' :: 'r' :: rest) = false) ∧
    tokenize "a:b:c and d:e:f" =
      .ok [Token.filter "a" "b" "c", Token.and, Token.filter "d" "e" "f", Token.eof] ∧
    tokenize "a:b:c AND d:e:f" =
      .ok [Token.filter "a" "b" "c", Token.and, Token.filter "d" "e" "f", Token.eof] := by
  refine ⟨?_, ?_, ?_, rfl, rfl⟩
  · intro fuel pos cs h
    match cs, h with
    | c1 :: c2 :: c3 :: rest, h =>
      simp only [andKeywordMatch, Bool.and_eq_true, Bool.or_eq_true,
        decide_eq_true_eq] at h
      obtain ⟨h4 | h4, hb⟩ := h
      all_goals obtain ⟨⟨rfl, rfl⟩, rfl⟩ := h4
      · have ha : andKeywordMatch ('A' :: 'N' :: 'D' :: rest) = true := by
          simp [andKeywordMatch, hb]
        have s1 : isJsSpace 'A' = false := rfl
        have s2 : ¬(('A' : Char) = '(') := by decide
        have s3 : ¬(('A' : Char) = ')') := by decide
        simp only [tokenizeLoop, s1, Bool.false_eq_true, if_false, if_neg s2,
          if_neg s3, ha, if_true, List.drop_succ_cons, List.drop_zero]
      · have ha : andKeywordMatch ('a' :: 'n' :: 'd' :: rest) = true := by
          simp [andKeywordMatch, hb]
        have s1 : isJsSpace 'a' = false := rfl
        have s2 : ¬(('a' : Char) = '(') := by decide
        have s3 : ¬(('a' : Char) = ')') := by decide
        simp only [tokenizeLoop, s1, Bool.false_eq_true, if_false, if_neg s2,
          if_neg s3, ha, if_true, List.drop_succ_cons, List.drop_zero]
  · intro fuel pos cs h
    match cs, h with
    | c1 :: c2 :: rest, h =>
      simp only [orKeywordMatch, Bool.and_eq_true, Bool.or_eq_true,
        decide_eq_true_eq] at h
      obtain ⟨⟨rfl, rfl⟩ | ⟨rfl, rfl⟩, hb⟩ := h
      · have ho : orKeywordMatch ('O' :: 'R' :: rest) = true := by
          simp [orKeywordMatch, hb]
        have ha : andKeywordMatch ('O' :: 'R' :: rest) = false := by
          cases rest <;> simp [andKeywordMatch]
        have s1 : isJsSpace 'O' = false := rfl
        have s2 : ¬(('O' : Char) = '(') := by decide
        have s3 : ¬(('O' : Char) = ')') := by decide
        simp only [tokenizeLoop, s1, Bool.false_eq_true, if_false, if_neg s2,
          if_neg s3, ha, ho, if_true, List.drop_succ_cons, List.drop_zero]
      · have ho : orKeywordMatch ('o' :: 'r' :: rest) = true := by
          simp [orKeywordMatch, hb]
        have ha : andKeywordMatch ('o' :: 'r' :: rest) = false := by
          cases rest <;> simp [andKeywordMatch]
        have s1 : isJsSpace 'o' = false := rfl
        have s2 : ¬(('o' : Char) = '(') := by decide
        have s3 : ¬(('o' : Char) = ')') := by decide
        simp only [tokenizeLoop, s1, Bool.false_eq_true, if_false, if_neg s2,
          if_neg s3, ha, ho, if_true, List.drop_succ_cons, List.drop_zero]
  · intro rest
    refine ⟨by simp [andKeywordMatch], by simp [andKeywordMatch], ?_, ?_,
      by simp [orKeywordMatch], by simp [orKeywordMatch], ?_⟩
    · simp [andKeywordMatch]
    · simp [andKeywordMatch]
    · simp [orKeywordMatch]

/-- C4 witness: the lowercase keyword at the head of the remaining input. -/
theorem C4_witness :
    tokenizeLoop 4 0 ['a', 'n', 'd'] =
      (match tokenizeLoop 3 3 ([] : List Char) with
       | .error e => .error e
       | .ok ts => .ok (Token.and :: ts)) :=
  C4_connective_tokens.1 3 0 ['a', 'n', 'd'] (by decide)

theorem AstList.append_cons_left :
    ∀ (xs : AstList) (r : Ast) (ys : AstList),
      (xs.append (.cons r .nil)).append ys = xs.append (.cons r ys)
  | .nil, _, _ => rfl
  | .cons x xs, r, ys =>
      congrArg (AstList.cons x) (AstList.append_cons_left xs r ys)

theorem AstList.length_append_one :
    ∀ (xs : AstList) (r : Ast),
      (xs.append (.cons r .nil)).length = xs.length + 1
  | .nil, r => rfl
  | .cons x xs, r => by
      simp [AstList.append, AstList.length, AstList.length_append_one xs r]
      omega

theorem wfAstList_append_one :
    ∀ (xs : AstList) (r : Ast),
      wfAstList (xs.append (.cons r .nil)) = (wfAstList xs && wfAst r)
  | .nil, r => by simp [AstList.append, wfAstList]
  | .cons x xs, r => by
      simp [AstList.append, wfAstList, wfAstList_append_one xs r, Bool.and_assoc]

theorem combineAnd_wf (l r : Ast) (hl : wfAst l = true) (hr : wfAst r = true) :
    wfAst (combineAnd l r) = true := by
  cases l with
  | filter p o v =>
    simp [combineAnd, wfAst, wfAstList, AstList.length, hr]
  | and fs =>
    simp only [wfAst, Bool.and_eq_true, decide_eq_true_eq] at hl
    simp [combineAnd, wfAst, wfAstList_append_one, AstList.length_append_one,
      hl.1, hl.2, hr]
    omega
  | or fs =>
    simp only [wfAst, Bool.and_eq_true, decide_eq_true_eq] at hl
    simp [combineAnd, wfAst, wfAstList, AstList.length, hl.1, hl.2, hr]

theorem combineOr_wf (l r : Ast) (hl : wfAst l = true) (hr : wfAst r = true) :
    wfAst (combineOr l r) = true := by
  cases l with
  | filter p o v =>
    simp [combineOr, wfAst, wfAstList, AstList.length, hr]
  | or fs =>
    simp only [wfAst, Bool.and_eq_true, decide_eq_true_eq] at hl
    simp [combineOr, wfAst, wfAstList_append_one, AstList.length_append_one,
      hl.1, hl.2, hr]
    omega
  | and fs =>
    simp only [wfAst, Bool.and_eq_true, decide_eq_true_eq] at hl
    simp [combineOr, wfAst, wfAstList, AstList.length, hl.1, hl.2, hr]

/-- Master induction over parser fuel: every AST produced by any of the five
parsing functions satisfies the ≥2-children invariant (the loop statements
additionally assume the accumulator does). -/
theorem parser_wf :
    ∀ fuel : Nat,
      (∀ ts a r, FilterParser.parsePrimary fuel ts = .ok (a, r) → wfAst a = true) ∧
      (∀ ts a r, FilterParser.parseOrExpression fuel ts = .ok (a, r) → wfAst a = true) ∧
      (∀ left ts a r, wfAst left = true →
        FilterParser.parseOrLoop fuel left ts = .ok (a, r) → wfAst a = true) ∧
      (∀ ts a r, FilterParser.parseAndExpression fuel ts = .ok (a, r) → wfAst a = true) ∧
      (∀ left ts a r, wfAst left = true →
        FilterParser.parseAndLoop fuel left ts = .ok (a, r) → wfAst a = true) := by
  intro fuel
  induction fuel with
  | zero =>
    refine ⟨fun ts a r h => ?_, fun ts a r h => ?_, fun left ts a r hw h => ?_,
      fun ts a r h => ?_, fun left ts a r hw h => ?_⟩ <;>
      simp [FilterParser.parsePrimary, FilterParser.parseOrExpression,
        FilterParser.parseOrLoop, FilterParser.parseAndExpression,
        FilterParser.parseAndLoop] at h
  | succ f ih =>
    obtain ⟨ihP, ihOE, ihOL, ihAE, ihAL⟩ := ih
    have hP : ∀ ts a r, FilterParser.parsePrimary (f + 1) ts = .ok (a, r) →
        wfAst a = true := by
      intro ts a r h
      match ts, h with
      | Token.filter p o v :: rest, h =>
        simp only [FilterParser.parsePrimary, Except.ok.injEq, Prod.mk.injEq] at h
        rw [← h.1]
        rfl
      | Token.lparen :: rest, h =>
        simp only [FilterParser.parsePrimary] at h
        cases he : FilterParser.parseAndExpression f rest with
        | error e => rw [he] at h; cases h
        | ok pr =>
          obtain ⟨expr, r1⟩ := pr
          rw [he] at h
          cases r1 with
          | nil => cases h
          | cons t r2 =>
            cases t with
            | rparen =>
              simp only [Except.ok.injEq, Prod.mk.injEq] at h
              rw [← h.1]
              exact ihAE rest expr (Token.rparen :: r2) he
            | lparen => cases h
            | and => cases h
            | or => cases h
            | filter p2 o2 v2 => cases h
            | eof => cases h
      | Token.rparen :: rest, h => cases h
      | Token.and :: rest, h => cases h
      | Token.or :: rest, h => cases h
      | Token.eof :: rest, h => cases h
      | [], h => cases h
    have hOL : ∀ left ts a r, wfAst left = true →
        FilterParser.parseOrLoop (f + 1) left ts = .ok (a, r) → wfAst a = true := by
      intro left ts a r hw h
      match ts, h with
      | Token.or :: rest, h =>
        simp only [FilterParser.parseOrLoop] at h
        cases he : FilterParser.parsePrimary f rest with
        | error e => rw [he] at h; cases h
        | ok pr =>
          obtain ⟨right, r1⟩ := pr
          rw [he] at h
          exact ihOL (combineOr left right) r1 a r
            (combineOr_wf left right hw (ihP rest right r1 he)) h
      | [], h => cases h
      | Token.lparen :: rest, h =>
        have h2 : (Except.ok (left, Token.lparen :: rest) :
            Except String (Ast × List Token)) = .ok (a, r) := h
        injection h2 with h3
        injection h3 with h4 h5
        rw [← h4]
        exact hw
      | Token.rparen :: rest, h =>
        have h2 : (Except.ok (left, Token.rparen :: rest) :
            Except String (Ast × List Token)) = .ok (a, r) := h
        injection h2 with h3
        injection h3 with h4 h5
        rw [← h4]
        exact hw
      | Token.and :: rest, h =>
        have h2 : (Except.ok (left, Token.and :: rest) :
            Except String (Ast × List Token)) = .ok (a, r) := h
        injection h2 with h3
        injection h3 with h4 h5
        rw [← h4]
        exact hw
      | Token.filter p o v :: rest, h =>
        have h2 : (Except.ok (left, Token.filter p o v :: rest) :
            Except String (Ast × List Token)) = .ok (a, r) := h
        injection h2 with h3
        injection h3 with h4 h5
        rw [← h4]
        exact hw
      | Token.eof :: rest, h =>
        have h2 : (Except.ok (left, Token.eof :: rest) :
            Except String (Ast × List Token)) = .ok (a, r) := h
        injection h2 with h3
        injection h3 with h4 h5
        rw [← h4]
        exact hw
    have hOE : ∀ ts a r, FilterParser.parseOrExpression (f + 1) ts = .ok (a, r) →
        wfAst a = true := by
      intro ts a r h
      simp only [FilterParser.parseOrExpression] at h
      cases he : FilterParser.parsePrimary f ts with
      | error e => rw [he] at h; cases h
      | ok pr =>
        obtain ⟨left, r1⟩ := pr
        rw [he] at h
        exact ihOL left r1 a r (ihP ts left r1 he) h
    have hAL : ∀ left ts a r, wfAst left = true →
        FilterParser.parseAndLoop (f + 1) left ts = .ok (a, r) → wfAst a = true := by
      intro left ts a r hw h
      match ts, h with
      | Token.and :: rest, h =>
        simp only [FilterParser.parseAndLoop] at h
        cases he : FilterParser.parseOrExpression f rest with
        | error e => rw [he] at h; cases h
        | ok pr =>
          obtain ⟨right, r1⟩ := pr
          rw [he] at h
          exact ihAL (combineAnd left right) r1 a r
            (combineAnd_wf left right hw (ihOE rest right r1 he)) h
      | [], h => cases h
      | Token.lparen :: rest, h =>
        have h2 : (Except.ok (left, Token.lparen :: rest) :
            Except String (Ast × List Token)) = .ok (a, r) := h
        injection h2 with h3
        injection h3 with h4 h5
        rw [← h4]
        exact hw
      | Token.rparen :: rest, h =>
        have h2 : (Except.ok (left, Token.rparen :: rest) :
            Except String (Ast × List Token)) = .ok (a, r) := h
        injection h2 with h3
        injection h3 with h4 h5
        rw [← h4]
        exact hw
      | Token.or :: rest, h =>
        have h2 : (Except.ok (left, Token.or :: rest) :
            Except String (Ast × List Token)) = .ok (a, r) := h
        injection h2 with h3
        injection h3 with h4 h5
        rw [← h4]
        exact hw
      | Token.filter p o v :: rest, h =>
        have h2 : (Except.ok (left, Token.filter p o v :: rest) :
            Except String (Ast × List Token)) = .ok (a, r) := h
        injection h2 with h3
        injection h3 with h4 h5
        rw [← h4]
        exact hw
      | Token.eof :: rest, h =>
        have h2 : (Except.ok (left, Token.eof :: rest) :
            Except String (Ast × List Token)) = .ok (a, r) := h
        injection h2 with h3
        injection h3 with h4 h5
        rw [← h4]
        exact hw
    have hAE : ∀ ts a r, FilterParser.parseAndExpression (f + 1) ts = .ok (a, r) →
        wfAst a = true := by
      intro ts a r h
      simp only [FilterParser.parseAndExpression] at h
      cases he : FilterParser.parseOrExpression f ts with
      | error e => rw [he] at h; cases h
      | ok pr =>
        obtain ⟨left, r1⟩ := pr
        rw [he] at h
        exact ihAL left r1 a r (ihOE ts left r1 he) h
    exact ⟨hP, hOE, hOL, hAE, hAL⟩

theorem parse_wf :
    ∀ (ts : List Token) (ast : Ast),
      FilterParser.parse ts = .ok ast → wfAst ast = true := by
  intro ts ast h
  unfold FilterParser.parse at h
  cases he : FilterParser.parseAndExpression (3 * ts.length + 3) ts with
  | error e => rw [he] at h; cases h
  | ok pr =>
    obtain ⟨a, r⟩ := pr
    rw [he] at h
    cases r with
    | nil => cases h
    | cons t r2 =>
      cases t with
      | eof =>
        simp only [Except.ok.injEq] at h
        rw [← h]
        exact (parser_wf _).2.2.2.1 ts a (Token.eof :: r2) he
      | lparen => cases h
      | rparen => cases h
      | and => cases h
      | or => cases h
      | filter p o v => cases h

theorem AstList.append_nil : ∀ xs : AstList, xs.append .nil = xs
  | .nil => rfl
  | .cons x xs => congrArg (AstList.cons x) (AstList.append_nil xs)

theorem parsePrimary_filter :
    ∀ (fuel : Nat) (p o v : String) (ts : List Token), 1 ≤ fuel →
      FilterParser.parsePrimary fuel (Token.filter p o v :: ts) =
        .ok (Ast.filter p o v, ts)
  | 0, _, _, _, _, h => absurd h (by omega)
  | _ + 1, _, _, _, _, _ => rfl

theorem parseAndLoop_stop :
    ∀ (fuel : Nat) (left : Ast), 1 ≤ fuel →
      FilterParser.parseAndLoop fuel left [Token.eof] = .ok (left, [Token.eof])
  | 0, _, h => absurd h (by omega)
  | _ + 1, _, _ => rfl

theorem parseOr_filter_step :
    ∀ (fuel : Nat) (p o v : String) (t : Token) (ts : List Token),
      2 ≤ fuel → t ≠ Token.or →
      FilterParser.parseOrExpression fuel (Token.filter p o v :: t :: ts) =
        .ok (Ast.filter p o v, t :: ts)
  | 0, _, _, _, _, _, h, _ => absurd h (by omega)
  | 1, _, _, _, _, _, h, _ => absurd h (by omega)
  | _ + 2, _, _, _, t, _, _, ht => by
    cases t with
    | or => exact absurd rfl ht
    | lparen => rfl
    | rparen => rfl
    | and => rfl
    | filter p2 o2 v2 => rfl
    | eof => rfl

theorem parseAndLoop_chain :
    ∀ (ps : List (String × String × String)) (fuel : Nat) (left : Ast),
      ps.length + 3 ≤ fuel →
      FilterParser.parseAndLoop fuel left (andChainRestTokens ps) =
        .ok (ps.foldl (fun acc q => combineAnd acc (Ast.filter q.1 q.2.1 q.2.2)) left,
             [Token.eof]) := by
  intro ps
  induction ps with
  | nil =>
    intro fuel left h
    match fuel, h with
    | f + 1, _ => rfl
  | cons q qs ih =>
    intro fuel left h
    obtain ⟨p, o, v⟩ := q
    match fuel, h with
    | f + 1, h =>
      simp only [andChainRestTokens, FilterParser.parseAndLoop]
      simp only [List.length_cons] at h
      cases qs with
      | nil =>
        rw [show FilterParser.parseOrExpression f
              (Token.filter p o v :: andChainRestTokens []) =
            .ok (Ast.filter p o v, [Token.eof]) from
          parseOr_filter_step f p o v Token.eof [] (by omega) (by simp)]
        show FilterParser.parseAndLoop f
            (combineAnd left (Ast.filter p o v)) (andChainRestTokens []) = _
        rw [ih f (combineAnd left (Ast.filter p o v)) (by simp; omega)]
        rfl
      | cons q2 qs2 =>
        obtain ⟨p2, o2, v2⟩ := q2
        rw [show FilterParser.parseOrExpression f
              (Token.filter p o v :: andChainRestTokens ((p2, o2, v2) :: qs2)) =
            .ok (Ast.filter p o v,
                 Token.and :: Token.filter p2 o2 v2 :: andChainRestTokens qs2) from by
          rw [show andChainRestTokens ((p2, o2, v2) :: qs2) =
              Token.and :: Token.filter p2 o2 v2 :: andChainRestTokens qs2 from rfl]
          exact parseOr_filter_step f p o v Token.and
            (Token.filter p2 o2 v2 :: andChainRestTokens qs2) (by omega) (by simp)]
        show FilterParser.parseAndLoop f (combineAnd left (Ast.filter p o v))
            (andChainRestTokens ((p2, o2, v2) :: qs2)) = _
        rw [ih f (combineAnd left (Ast.filter p o v)) (by simp at *; omega)]
        rfl

theorem parseOrLoop_chain :
    ∀ (ps : List (String × String × String)) (fuel : Nat) (left : Ast),
      ps.length + 2 ≤ fuel →
      FilterParser.parseOrLoop fuel left (orChainRestTokens ps) =
        .ok (ps.foldl (fun acc q => combineOr acc (Ast.filter q.1 q.2.1 q.2.2)) left,
             [Token.eof]) := by
  intro ps
  induction ps with
  | nil =>
    intro fuel left h
    match fuel, h with
    | f + 1, _ => rfl
  | cons q qs ih =>
    intro fuel left h
    obtain ⟨p, o, v⟩ := q
    match fuel, h with
    | f + 1, h =>
      simp only [orChainRestTokens, FilterParser.parseOrLoop]
      simp only [List.length_cons] at h
      rw [show FilterParser.parsePrimary f
            (Token.filter p o v :: orChainRestTokens qs) =
          .ok (Ast.filter p o v, orChainRestTokens qs) from
        parsePrimary_filter f p o v (orChainRestTokens qs) (by omega)]
      show FilterParser.parseOrLoop f (combineOr left (Ast.filter p o v))
          (orChainRestTokens qs) = _
      rw [ih f (combineOr left (Ast.filter p o v)) (by omega)]
      rfl

theorem parseAndExpr_and_chain :
    ∀ (p : String × String × String) (qs : List (String × String × String))
      (fuel : Nat), qs.length + 5 ≤ fuel →
      FilterParser.parseAndExpression fuel (andChainTokens (p :: qs)) =
        .ok (qs.foldl (fun acc q => combineAnd acc (Ast.filter q.1 q.2.1 q.2.2))
               (Ast.filter p.1 p.2.1 p.2.2),
             [Token.eof]) := by
  intro p qs fuel h
  obtain ⟨pp, po, pv⟩ := p
  match fuel, h with
  | f + 1, h =>
    simp only [andChainTokens, FilterParser.parseAndExpression]
    cases qs with
    | nil =>
      rw [show FilterParser.parseOrExpression f
            (Token.filter pp po pv :: andChainRestTokens []) =
          .ok (Ast.filter pp po pv, [Token.eof]) from
        parseOr_filter_step f pp po pv Token.eof [] (by omega) (by simp)]
      show FilterParser.parseAndLoop f (Ast.filter pp po pv) (andChainRestTokens []) = _
      rw [parseAndLoop_chain [] f (Ast.filter pp po pv) (by simp; omega)]
    | cons q2 qs2 =>
      obtain ⟨p2, o2, v2⟩ := q2
      rw [show FilterParser.parseOrExpression f
            (Token.filter pp po pv :: andChainRestTokens ((p2, o2, v2) :: qs2)) =
          .ok (Ast.filter pp po pv,
               Token.and :: Token.filter p2 o2 v2 :: andChainRestTokens qs2) from by
        rw [show andChainRestTokens ((p2, o2, v2) :: qs2) =
            Token.and :: Token.filter p2 o2 v2 :: andChainRestTokens qs2 from rfl]
        exact parseOr_filter_step f pp po pv Token.and
          (Token.filter p2 o2 v2 :: andChainRestTokens qs2)
          (by simp at h; omega) (by simp)]
      show FilterParser.parseAndLoop f (Ast.filter pp po pv)
          (andChainRestTokens ((p2, o2, v2) :: qs2)) = _
      rw [parseAndLoop_chain ((p2, o2, v2) :: qs2) f (Ast.filter pp po pv)
        (by simp at h ⊢; omega)]

theorem parseAndExpr_or_chain :
    ∀ (p : String × String × String) (qs : List (String × String × String))
      (fuel : Nat), qs.length + 5 ≤ fuel →
      FilterParser.parseAndExpression fuel (orChainTokens (p :: qs)) =
        .ok (qs.foldl (fun acc q => combineOr acc (Ast.filter q.1 q.2.1 q.2.2))
               (Ast.filter p.1 p.2.1 p.2.2),
             [Token.eof]) := by
  intro p qs fuel h
  obtain ⟨pp, po, pv⟩ := p
  match fuel, h with
  | f + 1, h =>
    simp only [orChainTokens, FilterParser.parseAndExpression]
    have hOE : FilterParser.parseOrExpression f
        (Token.filter pp po pv :: orChainRestTokens qs) =
        .ok (qs.foldl (fun acc q => combineOr acc (Ast.filter q.1 q.2.1 q.2.2))
               (Ast.filter pp po pv),
             [Token.eof]) := by
      match f, h with
      | f2 + 1, h =>
        simp only [FilterParser.parseOrExpression]
        rw [show FilterParser.parsePrimary f2
              (Token.filter pp po pv :: orChainRestTokens qs) =
            .ok (Ast.filter pp po pv, orChainRestTokens qs) from
          parsePrimary_filter f2 pp po pv (orChainRestTokens qs) (by omega)]
        show FilterParser.parseOrLoop f2 (Ast.filter pp po pv)
            (orChainRestTokens qs) = _
        rw [parseOrLoop_chain qs f2 (Ast.filter pp po pv) (by omega)]
    rw [hOE]
    show FilterParser.parseAndLoop f _ [Token.eof] = _
    rw [parseAndLoop_stop f _ (by omega)]

theorem andChainRest_length :
    ∀ ps : List (String × String × String),
      (andChainRestTokens ps).length = 2 * ps.length + 1
  | [] => rfl
  | (p, o, v) :: rest => by
      simp [andChainRestTokens, andChainRest_length rest]
      omega

theorem orChainRest_length :
    ∀ ps : List (String × String × String),
      (orChainRestTokens ps).length = 2 * ps.length + 1
  | [] => rfl
  | (p, o, v) :: rest => by
      simp [orChainRestTokens, orChainRest_length rest]
      omega

theorem foldl_combineAnd :
    ∀ (qs : List (String × String × String)) (fs : AstList),
      qs.foldl (fun acc q => combineAnd acc (Ast.filter q.1 q.2.1 q.2.2)) (Ast.and fs) =
        Ast.and (fs.append (leavesOf qs))
  | [], fs => by simp [leavesOf, AstList.append_nil]
  | q :: qs, fs => by
      obtain ⟨p, o, v⟩ := q
      show qs.foldl _ (combineAnd (Ast.and fs) (Ast.filter p o v)) = _
      rw [show combineAnd (Ast.and fs) (Ast.filter p o v) =
          Ast.and (fs.append (.cons (Ast.filter p o v) .nil)) from rfl]
      rw [foldl_combineAnd qs (fs.append (.cons (Ast.filter p o v) .nil))]
      rw [AstList.append_cons_left]
      rfl

theorem foldl_combineOr :
    ∀ (qs : List (String × String × String)) (fs : AstList),
      qs.foldl (fun acc q => combineOr acc (Ast.filter q.1 q.2.1 q.2.2)) (Ast.or fs) =
        Ast.or (fs.append (leavesOf qs))
  | [], fs => by simp [leavesOf, AstList.append_nil]
  | q :: qs, fs => by
      obtain ⟨p, o, v⟩ := q
      show qs.foldl _ (combineOr (Ast.or fs) (Ast.filter p o v)) = _
      rw [show combineOr (Ast.or fs) (Ast.filter p o v) =
          Ast.or (fs.append (.cons (Ast.filter p o v) .nil)) from rfl]
      rw [foldl_combineOr qs (fs.append (.cons (Ast.filter p o v) .nil))]
      rw [AstList.append_cons_left]
      rfl

theorem leavesOf_length :
    ∀ ps : List (String × String × String), (leavesOf ps).length = ps.length
  | [] => rfl
  | (p, o, v) :: rest => by
      simp [leavesOf, AstList.length, leavesOf_length rest]
      omega

theorem parse_and_chain :
    ∀ (p q : String × String × String) (qs2 : List (String × String × String)),
      FilterParser.parse (andChainTokens (p :: q :: qs2)) =
        .ok (.and (leavesOf (p :: q :: qs2))) := by
  intro p q qs2
  obtain ⟨pp, po, pv⟩ := p
  obtain ⟨qp, qo, qv⟩ := q
  have hfold : List.foldl (fun acc q => combineAnd acc (Ast.filter q.1 q.2.1 q.2.2))
      (Ast.filter pp po pv) ((qp, qo, qv) :: qs2) =
      Ast.and (leavesOf ((pp, po, pv) :: (qp, qo, qv) :: qs2)) := by
    show List.foldl _ (combineAnd (Ast.filter pp po pv) (Ast.filter qp qo qv)) qs2 = _
    rw [show combineAnd (Ast.filter pp po pv) (Ast.filter qp qo qv) =
        Ast.and (.cons (Ast.filter pp po pv) (.cons (Ast.filter qp qo qv) .nil)) from rfl]
    rw [foldl_combineAnd]
    rfl
  unfold FilterParser.parse
  rw [parseAndExpr_and_chain (pp, po, pv) ((qp, qo, qv) :: qs2) _
    (by simp [andChainTokens, andChainRest_length]; omega)]
  show (Except.ok (List.foldl (fun acc q => combineAnd acc (Ast.filter q.1 q.2.1 q.2.2))
      (Ast.filter pp po pv) ((qp, qo, qv) :: qs2)) : Except String Ast) =
    Except.ok (Ast.and (leavesOf ((pp, po, pv) :: (qp, qo, qv) :: qs2)))
  rw [hfold]

theorem parse_or_chain :
    ∀ (p q : String × String × String) (qs2 : List (String × String × String)),
      FilterParser.parse (orChainTokens (p :: q :: qs2)) =
        .ok (.or (leavesOf (p :: q :: qs2))) := by
  intro p q qs2
  obtain ⟨pp, po, pv⟩ := p
  obtain ⟨qp, qo, qv⟩ := q
  have hfold : List.foldl (fun acc q => combineOr acc (Ast.filter q.1 q.2.1 q.2.2))
      (Ast.filter pp po pv) ((qp, qo, qv) :: qs2) =
      Ast.or (leavesOf ((pp, po, pv) :: (qp, qo, qv) :: qs2)) := by
    show List.foldl _ (combineOr (Ast.filter pp po pv) (Ast.filter qp qo qv)) qs2 = _
    rw [show combineOr (Ast.filter pp po pv) (Ast.filter qp qo qv) =
        Ast.or (.cons (Ast.filter pp po pv) (.cons (Ast.filter qp qo qv) .nil)) from rfl]
    rw [foldl_combineOr]
    rfl
  unfold FilterParser.parse
  rw [parseAndExpr_or_chain (pp, po, pv) ((qp, qo, qv) :: qs2) _
    (by simp [orChainTokens, orChainRest_length]; omega)]
  show (Except.ok (List.foldl (fun acc q => combineOr acc (Ast.filter q.1 q.2.1 q.2.2))
      (Ast.filter pp po pv) ((qp, qo, qv) :: qs2)) : Except String Ast) =
    Except.ok (Ast.or (leavesOf ((pp, po, pv) :: (qp, qo, qv) :: qs2)))
  rw [hfold]

/-- C2: flattening invariant — every `and`/`or` node of an AST returned by
`FilterParser.parse` has at least 2 children (`wfAst`); n ≥ 2 operands
joined by the same connective at one precedence level parse to one flat
node carrying the n leaves in original order (never nested binary pairs);
and the three-way AND example compiles to a single `and` with exactly three
elements. -/
theorem C2_flattening :
    (∀ (ts : List Token) (ast : Ast),
      FilterParser.parse ts = .ok ast → wfAst ast = true) ∧
    (∀ (p q : String × String × String) (qs2 : List (String × String × String)),
      FilterParser.parse (andChainTokens (p :: q :: qs2)) =
        .ok (.and (leavesOf (p :: q :: qs2))) ∧
      FilterParser.parse (orChainTokens (p :: q :: qs2)) =
        .ok (.or (leavesOf (p :: q :: qs2)))) ∧
    (∀ ps : List (String × String × String), (leavesOf ps).length = ps.length) ∧
    parseFilter (some "A:equals:1 AND B:equals:2 AND C:equals:3")
        [("A", "title"), ("B", "title"), ("C", "title")] =
      .ok (some (.and (.cons (.leaf "A" "title" "equals" (.str "1"))
        (.cons (.leaf "B" "title" "equals" (.str "2"))
          (.cons (.leaf "C" "title" "equals" (.str "3")) .nil))))) :=
  ⟨parse_wf, fun p q qs2 => ⟨parse_and_chain p q qs2, parse_or_chain p q qs2⟩,
   leavesOf_length, rfl⟩

/-- C2 witness: a concrete two-operand AND chain parses to one flat
well-formed node. -/
theorem C2_witness :
    wfAst (Ast.and (.cons (.filter "A" "equals" "1")
        (.cons (.filter "B" "equals" "2") .nil))) = true ∧
    FilterParser.parse
        (andChainTokens [("A", "equals", "1"), ("B", "equals", "2")]) =
      .ok (.and (.cons (.filter "A" "equals" "1")
            (.cons (.filter "B" "equals" "2") .nil))) :=
  ⟨C2_flattening.1 (andChainTokens [("A", "equals", "1"), ("B", "equals", "2")])
      (Ast.and (.cons (.filter "A" "equals" "1")
        (.cons (.filter "B" "equals" "2") .nil))) rfl,
   (C2_flattening.2.1 ("A", "equals", "1") ("B", "equals", "2") []).1⟩
